import Mathlib

/-!
Shallow embedding of the `globber` extended-glob crate.

The compiler (`src/syntax.rs`) is embedded as a fuel-indexed structural
recursion (`parseLoop`), the matcher (`src/matcher.rs`) as a mutual
well-founded recursion (`matchIndex` and the loop helpers that mirror the
Rust `while`/`for` loops).  Rust `char` is Lean `Char`, `Vec<Token>` is
`List Token`, and the iterator `Chars` is the remaining `List Char`.
-/

namespace Globber

/-- `enum CharSpecifier` of `syntax.rs`. -/
inductive CharSpecifier where
  | char (c : Char)
  | range (lo hi : Char)
deriving DecidableEq

/-- The token vocabulary of `syntax.rs` (`enum Token`).  Constructor names
follow the Rust variants (lower-cased). -/
inductive Token where
  | anyChar
  | anySequence
  | anyRecursive
  | anyOf (specifiers : List CharSpecifier)
  | notAnyOf (specifiers : List CharSpecifier)
  | char (c : Char)
  | zeroOrOne (patterns : List (List Token))
  | zeroOrMore (patterns : List (List Token))
  | oneOrMore (patterns : List (List Token))
  | exactlyOne (patterns : List (List Token))
  | noneOf (patterns : List (List Token))

/-- The three-valued step result of `matcher.rs` (`enum Status`).
Rust `Match`/`Retryable`/`NoMatch`; `Match` is a Lean keyword, so the
constructor is named `matched`. -/
inductive Status where
  | matched
  | retryable
  | noMatch
deriving DecidableEq

/-- `std::path::is_separator` as it behaves on Unix targets: the only
path separator is `/`. -/
def isSeparator (c : Char) : Bool := c = '/'

/-- `match_specifiers` of `matcher.rs`: first specifier that accepts the
character short-circuits to `Match`; otherwise `Retryable`. -/
def matchSpecifiers : List CharSpecifier → Char → Status
  | [], _ => .retryable
  | .char c1 :: specs, c =>
      if c = c1 then .matched else matchSpecifiers specs c
  | .range lo hi :: specs, c =>
      if lo ≤ c ∧ c ≤ hi then .matched else matchSpecifiers specs c

theorem list_sizeOf_pos {α} [SizeOf α] (l : List α) : 0 < sizeOf l := by
  cases l <;> simp_arith

theorem sizeOf_tokens_append (l1 l2 : List Token) :
    sizeOf (l1 ++ l2) = sizeOf l1 + sizeOf l2 - 1 := by
  induction l1 with
  | nil => have := list_sizeOf_pos l2; simp; try omega
  | cons a l ih => have := list_sizeOf_pos l2; simp [List.cons_append, ih]; try omega

mutual

/-- `match_index` of `matcher.rs`.  The Rust `for` loop over the token
suffix is the head-recursion on the token list; falling off the end of the
loop is the `[]` case (`input.next()` deciding `Match` vs `Retryable`).
Note the `anyChar` arm: the Rust source returns `Status::Match`
unconditionally, consuming no input. -/
def matchIndex : List Token → List Char → Status
  | [], [] => .matched
  | [], _ :: _ => .retryable
  | .anyChar :: _, _ => .matched
  | .char _ :: _, [] => .noMatch
  | .char c :: rest, x :: xs =>
      if c = x then matchIndex rest xs else .retryable
  | .anyOf _ :: _, [] => .noMatch
  | .anyOf specs :: rest, x :: xs =>
      match matchSpecifiers specs x with
      | .matched => matchIndex rest xs
      | _ => .retryable
  | .notAnyOf _ :: _, [] => .noMatch
  | .notAnyOf specs :: rest, x :: xs =>
      match matchSpecifiers specs x with
      | .matched => .retryable
      | _ => matchIndex rest xs
  | .anySequence :: rest, input =>
      match matchIndex rest input with
      | .retryable => seqSearch rest input
      | r => r
  | .anyRecursive :: .char c :: rest2, input =>
      match matchIndex (.char c :: rest2) input with
      | .retryable =>
        if isSeparator c then
          match matchIndex rest2 input with
          | .retryable => seqSearch (.char c :: rest2) input
          | r => r
        else seqSearch (.char c :: rest2) input
      | r => r
  | .anyRecursive :: rest, input =>
      match matchIndex rest input with
      | .retryable => seqSearch rest input
      | r => r
  | .zeroOrOne alts :: rest, input =>
      let m := countMatchingAlts alts rest input 0
      if m > 1 then .retryable
      else if m = 1 then .matched
      else matchIndex rest input
  | .zeroOrMore alts :: rest, input =>
      if anyAltMatches alts rest input then .matched
      else matchIndex rest input
  | .oneOrMore alts :: rest, input =>
      if anyAltMatches alts rest input then .matched
      else .retryable
  | .exactlyOne alts :: rest, input =>
      if countMatchingAlts alts rest input 0 = 1 then .matched
      else .retryable
  | .noneOf alts :: rest, input =>
      if anyAltMatches alts rest input then .retryable
      else seqSearch rest input
termination_by toks input => (sizeOf toks, input.length)
decreasing_by all_goals (simp_wf; simp [Prod.lex_iff, sizeOf_tokens_append]; try omega)

/-- The `while let Some(_) = input.next()` search of `match_index`
(`AnySequence`/`AnyRecursive`/`NoneOf` arms): consume one character, retry
the remaining tokens; when the input is drained, control falls back to the
`for` loop, i.e. the remaining tokens run against the drained input. -/
def seqSearch : List Token → List Char → Status
  | rest, [] => matchIndex rest []
  | rest, _ :: xs =>
      match matchIndex rest xs with
      | .retryable => seqSearch rest xs
      | r => r
termination_by rest input => (sizeOf rest + 1, input.length)
decreasing_by all_goals (simp_wf; simp [Prod.lex_iff, sizeOf_tokens_append]; try omega)

/-- The first-success `for t in patterns` loop of the `ZeroOrMore`,
`OneOrMore` and `NoneOf` arms: each alternative is extended with the
remaining tokens and tried against the current input. -/
def anyAltMatches : List (List Token) → List Token → List Char → Bool
  | [], _, _ => false
  | alt :: more, rest, input =>
      if matchIndex (alt ++ rest) input = .matched then true
      else anyAltMatches more rest input
termination_by alts rest input => (sizeOf alts + sizeOf rest + 1, input.length)
decreasing_by all_goals (simp_wf; simp [Prod.lex_iff, sizeOf_tokens_append]; try omega)

/-- The counting `for t in patterns` loop of the `ZeroOrOne` and
`ExactlyOne` arms, with the Rust early exit once the count exceeds 1. -/
def countMatchingAlts : List (List Token) → List Token → List Char → Nat → Nat
  | [], _, _, m => m
  | alt :: more, rest, input, m =>
      let m1 := if matchIndex (alt ++ rest) input = .matched then m + 1 else m
      if m1 > 1 then m1 else countMatchingAlts more rest input m1
termination_by alts rest input _ => (sizeOf alts + sizeOf rest + 1, input.length)
decreasing_by all_goals (simp_wf; simp [Prod.lex_iff, sizeOf_tokens_append]; try omega)

end

/-- `Matcher::matches` of `matcher.rs`: the whole input matches when
`match_index` starting at token 0 returns `Match`. -/
def matcherMatches (tokens : List Token) (input : List Char) : Bool :=
  decide (matchIndex tokens input = .matched)

/-- `enum Error` of `syntax.rs`, each variant carrying the 0-based
character offset of the fault. -/
inductive Error where
  | illegalPattern (i : Nat)
  | emptyPattern (i : Nat)
  | unclosedPattern (i : Nat)
  | illegalChar (i : Nat)
  | illegalOr (i : Nat)
  | illegalRange (i : Nat)
  | unclosedRange (i : Nat)
  | emptyRange (i : Nat)
  | illegalWildcard (i : Nat)
  | illegalRecursion (i : Nat)
  | illegalEscape (i : Nat)
deriving DecidableEq

/-- Outcome of the `parse_range` scanning loop over the class body:
an unescaped `]` at relative index `i`, an unescaped structural character
at relative index `i`, or end of text without a closing `]`. -/
inductive ClassScan where
  | closed (i : Nat)
  | illegal (i : Nat)
  | unterminated
deriving DecidableEq

/-- The `for (i, c) in self.chars[first_char..]` loop of `parse_range`:
an escaped character is skipped, an unescaped `]` closes the class, the
structural characters `[`, `(`, `)`, `|` are illegal inside a class. -/
def scanClassBody : List Char → Bool → Nat → ClassScan
  | [], _, _ => .unterminated
  | c :: cs, escaped, i =>
    if escaped then scanClassBody cs false (i + 1)
    else if c = '\\' then scanClassBody cs true (i + 1)
    else if c = ']' then .closed i
    else if c = '[' ∨ c = '(' ∨ c = ')' ∨ c = '|' then .illegal i
    else scanClassBody cs false (i + 1)

/-- `parse_char_specifiers` of `syntax.rs`: a `c1 - c2` triple becomes a
`Range`, every other character (the `-` rules aside) becomes a `Char`
specifier.  The backslash receives no special treatment here. -/
def parseCharSpecifiers : List Char → List CharSpecifier
  | [] => []
  | a :: b :: c :: rest =>
      if b = '-' then .range a c :: parseCharSpecifiers rest
      else .char a :: parseCharSpecifiers (b :: c :: rest)
  | a :: rest => .char a :: parseCharSpecifiers rest

/-- The tail of `Parser::parse_range` after the `!`-negation detection:
scan for the closing `]` from position `fc`, build the specifier list.
`start` is the position of the opening `[`. -/
def rangeBody (chars : List Char) (start fc : Nat) (negated : Bool) :
    Except Error (Token × Nat) :=
  match scanClassBody (chars.drop fc) false 0 with
  | .illegal i => .error (.illegalChar (fc + i))
  | .unterminated => .error (.unclosedRange (chars.length - 1))
  | .closed i =>
    let body := (chars.drop fc).take i
    if body.isEmpty then .error (.emptyRange start)
    else
      let tok := if negated then Token.notAnyOf (parseCharSpecifiers body)
                 else Token.anyOf (parseCharSpecifiers body)
      .ok (tok, fc + i + 1)

/-- `Parser::parse_range` of `syntax.rs`; `start` is `self.i`, the index
of the `[`.  A `[` as the last character is `IllegalRange`; a class closed
immediately (`[]`, and `[!]` via the empty-body check) is `EmptyRange`. -/
def parseRange (chars : List Char) (start : Nat) : Except Error (Token × Nat) :=
  if start + 1 ≥ chars.length then .error (.illegalRange start)
  else if chars.getD (start + 1) ' ' = '!' then rangeBody chars start (start + 2) true
  else if chars.getD (start + 1) ' ' = ']' then .error (.emptyRange start)
  else rangeBody chars start (start + 1) false

/-- `Parser::parse_wildcards` of `syntax.rs`: `**` demands a `/` or a
pattern boundary on both sides; the left flank is checked first. -/
def parseWildcards (chars : List Char) (i : Nat) : Except Error (Token × Nat) :=
  let start := i
  let next := i + 1
  if next < chars.length ∧ chars.getD next ' ' = '*' then
    if start > 0 ∧ chars.getD (start - 1) ' ' ≠ '/' then
      .error (.illegalRecursion (start - 1))
    else if next + 1 < chars.length then
      match chars.getD (next + 1) ' ' with
      | '/' => .ok (.anyRecursive, next + 1)
      | '*' => .error (.illegalWildcard (next + 1))
      | _ => .error (.illegalRecursion (next + 1))
    else .ok (.anyRecursive, next + 1)
  else .ok (.anySequence, next)

/-- `Parser::parse_escape` of `syntax.rs`. -/
def parseEscape (chars : List Char) (i : Nat) : Except Error (Token × Nat) :=
  if i + 1 ≥ chars.length then .error (.illegalEscape i)
  else .ok (.char (chars.getD (i + 1) ' '), i + 2)

/-- The first scanning loop of `Parser::parse_patterns`: find the
unescaped `)` (relative index returned) that closes the group, tracking a
stack of nested `(`/`[`; `start` is the absolute offset of the scan start,
used for error positions.  `ok none` means the text ran out. -/
def groupScan : List Char → Bool → List Char → Nat → Nat → Except Error (Option Nat)
  | [], _, _, _, _ => .ok none
  | c :: cs, escaped, stack, i, start =>
    if escaped then groupScan cs false stack (i + 1) start
    else if c = '\\' then groupScan cs true stack (i + 1) start
    else if c = ']' then
      match stack with
      | [] => .error (.illegalChar (start + i))
      | t :: stk =>
        if t ≠ '[' then .error (.illegalChar (start + i))
        else groupScan cs false stk (i + 1) start
    else if c = ')' then
      match stack with
      | [] => .ok (some i)
      | t :: stk =>
        if t ≠ '(' then .error (.illegalChar (start + i))
        else groupScan cs false stk (i + 1) start
    else if c = '(' ∨ c = '[' then groupScan cs false (c :: stack) (i + 1) start
    else groupScan cs false stack (i + 1) start

/-- The second loop of `Parser::parse_patterns`: split the group body
`inner` on top-level `|`, each part non-empty (`IllegalOr` otherwise).
`last` is the start of the current part, `i` the current relative index. -/
def splitScan (inner : List Char) :
    List Char → Nat → Bool → List Char → Nat → Nat → List (List Char) →
    Except Error (List (List Char))
  | [], _, _, _, last, start, acc =>
      let part := inner.drop last
      if part.isEmpty then .error (.illegalOr (start + last))
      else .ok (acc ++ [part])
  | c :: cs, i, escaped, stack, last, start, acc =>
    if escaped then splitScan inner cs (i + 1) false stack last start acc
    else if c = '\\' then splitScan inner cs (i + 1) true stack last start acc
    else if c = ']' then
      match stack with
      | [] => .error (.illegalChar (start + i))
      | t :: stk =>
        if t ≠ '[' then .error (.illegalChar (start + i))
        else splitScan inner cs (i + 1) false stk last start acc
    else if c = ')' then
      match stack with
      | [] => .error (.illegalChar (start + i))
      | t :: stk =>
        if t ≠ '(' then .error (.illegalChar (start + i))
        else splitScan inner cs (i + 1) false stk last start acc
    else if c = '(' ∨ c = '[' then
      splitScan inner cs (i + 1) false (c :: stack) last start acc
    else if c = '|' then
      if stack.isEmpty then
        let part := (inner.drop last).take (i - last)
        if part.isEmpty then .error (.illegalOr (start + last))
        else splitScan inner cs (i + 1) false stack (i + 1) start (acc ++ [part])
      else splitScan inner cs (i + 1) false stack last start acc
    else splitScan inner cs (i + 1) false stack last start acc

/-- `Parser::parse` of `syntax.rs`: the `while self.i < len` scanning
loop, with the two-character lookahead for the five extended-glob group
openers.  `fuel` is a structural-recursion budget (the Rust loop always
terminates because `i` strictly increases and recursive sub-pattern texts
are strictly shorter; `parse` below supplies fuel that is never
exhausted). -/
def parseLoop : Nat → List Char → Nat → Except Error (List Token)
  | 0, _, _ => .error (.illegalPattern 0)
  | fuel + 1, chars, i =>
    if i < chars.length then
      let mk : Option (List (List Token) → Token) :=
        if i + 1 < chars.length then
          match chars.getD i ' ', chars.getD (i + 1) ' ' with
          | '?', '(' => some .zeroOrOne
          | '*', '(' => some .zeroOrMore
          | '+', '(' => some .oneOrMore
          | '@', '(' => some .exactlyOne
          | '!', '(' => some .noneOf
          | _, _ => none
        else none
      match mk with
      | some mkTok =>
        let start := i + 2
        match groupScan (chars.drop start) false [] 0 start with
        | .error e => .error e
        | .ok none => .error (.unclosedPattern (chars.length - 1))
        | .ok (some gi) =>
          let inner := (chars.drop start).take gi
          if inner.isEmpty then .error (.emptyPattern start)
          else
            match splitScan inner inner 0 false [] 0 start [] with
            | .error e => .error e
            | .ok parts =>
              match parts.mapM (fun p => parseLoop fuel p 0) with
              | .error e => .error e
              | .ok pats =>
                match parseLoop fuel chars (start + gi + 1) with
                | .error e => .error e
                | .ok rest => .ok (mkTok pats :: rest)
      | none =>
        let step : Except Error (Token × Nat) :=
          match chars.getD i ' ' with
          | '?' => .ok (.anyChar, i + 1)
          | '*' => parseWildcards chars i
          | '\\' => parseEscape chars i
          | '[' => parseRange chars i
          | ']' => .error (.illegalChar i)
          | '(' => .error (.illegalChar i)
          | ')' => .error (.illegalChar i)
          | '|' => .error (.illegalChar i)
          | c => .ok (.char c, i + 1)
        match step with
        | .error e => .error e
        | .ok (t, ni) =>
          match parseLoop fuel chars ni with
          | .error e => .error e
          | .ok rest => .ok (t :: rest)
    else .ok []

/-- `parse` of `syntax.rs` (the crate's `compile` step): run the scanning
loop from index 0.  The fuel is generous: the loop advances at least one
character per step and each nested sub-pattern is strictly shorter than
the whole, so `(n + 2)^2` steps are never exhausted for a pattern of
length `n`. -/
def parse (chars : List Char) : Except Error (List Token) :=
  parseLoop ((chars.length + 2) * (chars.length + 2)) chars 0

/-- Discriminator: does a compile result carry the `IllegalRange` error
kind (any offset)? -/
def isIllegalRangeErr : Except Error (List Token) → Bool
  | .error (.illegalRange _) => true
  | _ => false

/-- The character-by-character search with no tokens left always succeeds:
either the input is already empty, or consuming all of it reaches the
empty-input end-of-pattern success. -/
theorem seqSearch_nil_matched : ∀ s : List Char, seqSearch ([] : List Token) s = .matched := by
  intro s
  induction s with
  | nil => simp [seqSearch, matchIndex]
  | cons x xs ih => cases xs <;> simp_all [seqSearch, matchIndex]

/-- The early-exit counting loop computes the number of matching
alternatives capped at 2 (the cap is where the Rust loop breaks out). -/
theorem countMatchingAlts_min (rest : List Token) (input : List Char)
    (alts : List (List Token)) :
    ∀ m : Nat, m ≤ 1 →
      countMatchingAlts alts rest input m =
        min (m + alts.countP (fun alt => decide (matchIndex (alt ++ rest) input = .matched))) 2 := by
  induction alts with
  | nil => intro m hm; simp [countMatchingAlts]; omega
  | cons alt more ih =>
      intro m hm
      by_cases h : matchIndex (alt ++ rest) input = .matched
      · interval_cases m
        · simp [countMatchingAlts, List.countP_cons, h, ih 1 (by omega)]
          omega
        · simp [countMatchingAlts, List.countP_cons, h]
          omega
      · simp [countMatchingAlts, List.countP_cons, h, ih m hm]
        omega

/-- C1: the claim says an `AnyChar` token (compiled from `?`) consumes
exactly one character, so `isMatch(compile("?"), s)` holds exactly for
length-1 inputs.  The source (`matcher.rs` line 72) instead returns
`Status::Match` unconditionally, consuming nothing and discarding the rest
of pattern and input: `"?"` matches every string, including the empty one
and two-character ones. -/
theorem anyChar_matches_everything :
    parse "?".toList = .ok [.anyChar] ∧
    matcherMatches [.anyChar] [] = true ∧
    matcherMatches [.anyChar] "ab".toList = true ∧
    ∀ s : List Char, matcherMatches [.anyChar] s = true := by
  refine ⟨by rfl, by simp [matcherMatches, matchIndex], by simp [matcherMatches, matchIndex], ?_⟩
  intro s
  simp [matcherMatches, matchIndex]

/-- C2 counterexample: for the `NoneOf` group of `!(x)y` against input
`"y"`, no alternative (concatenated with the remainder) matches, yet the
step does not behave like `AnySequence` in the same position: the code
yields `NoMatch` where `AnySequence` yields `Match`, because the `NoneOf`
arm never tries the zero-character expansion. -/
theorem noneOf_not_like_anySequence_cex :
    parse "!(x)y".toList = .ok [.noneOf [[.char 'x']], .char 'y'] ∧
    anyAltMatches [[.char 'x']] [.char 'y'] ['y'] = false ∧
    matchIndex [.noneOf [[.char 'x']], .char 'y'] ['y'] = .noMatch ∧
    matchIndex [.anySequence, .char 'y'] ['y'] = .matched := by
  refine ⟨by rfl, ?_, ?_, ?_⟩
  · simp [anyAltMatches, matchIndex]
  · simp [matchIndex, seqSearch, anyAltMatches]
  · simp [matchIndex, seqSearch]

/-- C2 (amended): if any alternative concatenated with the remainder
matches the current input the `NoneOf` step yields `Retryable`; otherwise
it searches by consuming one input character at a time WITHOUT first
trying the zero-character expansion — so it coincides with `AnySequence`
exactly when the zero-character expansion would have been `Retryable`. -/
theorem noneOf_step_amended :
    ∀ (alts : List (List Token)) (rest : List Token) (input : List Char),
      (anyAltMatches alts rest input = true →
        matchIndex (.noneOf alts :: rest) input = .retryable) ∧
      (anyAltMatches alts rest input = false →
        matchIndex rest input = .retryable →
        matchIndex (.noneOf alts :: rest) input = matchIndex (.anySequence :: rest) input) := by
  intro alts rest input
  constructor
  · intro hA
    simp [matchIndex, hA]
  · intro hA h0
    simp [matchIndex, hA, h0]

/-- Witness for C2's amended theorem at concrete inputs: `!(a)` against
`"a"` is `Retryable` (the excluded alternative matches), and `!(x)y`
against `"zy"` (zero-character expansion `Retryable`) agrees with `*y`. -/
theorem noneOf_step_amended_witness :
    matchIndex [.noneOf [[.char 'a']]] ['a'] = .retryable ∧
    matchIndex [.noneOf [[.char 'x']], .char 'y'] ['z', 'y'] =
      matchIndex [.anySequence, .char 'y'] ['z', 'y'] := by
  constructor
  · exact (noneOf_step_amended [[.char 'a']] [] ['a']).1
      (by simp [anyAltMatches, matchIndex])
  · exact (noneOf_step_amended [[.char 'x']] [.char 'y'] ['z', 'y']).2
      (by simp [anyAltMatches, matchIndex])
      (by simp [matchIndex])

/-- C3 counterexample: `compile("a**b")` does fail with an
illegal-recursion error, but at offset 0 (the `a` left of the `**`), not
at offset 1 as the claim states. -/
theorem recursion_error_offset_cex :
    parse "a**b".toList = .error (.illegalRecursion 0) ∧
    parse "a**b".toList ≠ .error (.illegalRecursion 1) := by
  constructor
  · rfl
  · intro h
    rw [show parse "a**b".toList = .error (.illegalRecursion 0) from rfl] at h
    simp at h

/-- C3 (amended): `compile("a**b")` fails with an illegal-recursion error
at offset 0, the character immediately left of the first `*`, because the
left-flank check of `parse_wildcards` fires first (`a` is not a `/`); the
right flank is only examined when the left flank is legal, as in
`compile("a/**b")`, which fails at offset 4. -/
theorem recursion_error_offset_amended :
    parse "a**b".toList = .error (.illegalRecursion 0) ∧
    parse "a/**b".toList = .error (.illegalRecursion 4) := by
  exact ⟨by rfl, by rfl⟩

/-- C4: once all tokens are consumed, the step yields `Match` exactly when
the input is simultaneously exhausted, and leftover input yields
`Retryable`, never a hard failure. -/
theorem end_of_pattern_rule :
    ∀ input : List Char,
      matchIndex ([] : List Token) input =
        (if input.isEmpty then Status.matched else Status.retryable) ∧
      matcherMatches [] input = input.isEmpty := by
  intro input
  cases input <;> simp [matchIndex, matcherMatches]

/-- C5: an `AnyRecursive` token followed by a literal separator may absorb
the separator: when the zero-character expansion is `Retryable`, the
matcher tries the tokens after the separator at the same position before
the character-by-character search, and a decisive answer there is the step
result.  Consequently `some/**/needle.txt` accepts both
`some/needle.txt` (zero segments) and `some/one/two/needle.txt`. -/
theorem anyRecursive_separator_absorption :
    (∀ (c : Char) (rest2 : List Token) (input : List Char),
      isSeparator c = true →
      matchIndex (.char c :: rest2) input = .retryable →
      matchIndex rest2 input ≠ .retryable →
      matchIndex (.anyRecursive :: .char c :: rest2) input = matchIndex rest2 input) ∧
    parse "some/**/needle.txt".toList =
      .ok [.char 's', .char 'o', .char 'm', .char 'e', .char '/', .anyRecursive,
           .char '/', .char 'n', .char 'e', .char 'e', .char 'd', .char 'l',
           .char 'e', .char '.', .char 't', .char 'x', .char 't'] ∧
    matcherMatches
      [.char 's', .char 'o', .char 'm', .char 'e', .char '/', .anyRecursive,
       .char '/', .char 'n', .char 'e', .char 'e', .char 'd', .char 'l',
       .char 'e', .char '.', .char 't', .char 'x', .char 't']
      "some/needle.txt".toList = true ∧
    matcherMatches
      [.char 's', .char 'o', .char 'm', .char 'e', .char '/', .anyRecursive,
       .char '/', .char 'n', .char 'e', .char 'e', .char 'd', .char 'l',
       .char 'e', .char '.', .char 't', .char 'x', .char 't']
      "some/one/two/needle.txt".toList = true := by
  refine ⟨?_, by rfl, ?_, ?_⟩
  · intro c rest2 input hsep h1 h2
    cases hv : matchIndex rest2 input with
    | matched => simp only [matchIndex, h1, hsep, if_true, hv]
    | retryable => exact absurd hv h2
    | noMatch => simp only [matchIndex, h1, hsep, if_true, hv]
  · simp [matcherMatches, matchIndex, seqSearch, isSeparator]
  · simp [matcherMatches, matchIndex, seqSearch, isSeparator]

/-- Witness for C5's absorption statement: `**` followed by `/` then
literal `a`, on input `"a"`: the zero-character expansion is `Retryable`,
the post-separator tokens match decisively, and the step equals that
result. -/
theorem anyRecursive_separator_absorption_witness :
    matchIndex [.anyRecursive, .char '/', .char 'a'] ['a'] = matchIndex [.char 'a'] ['a'] := by
  exact anyRecursive_separator_absorption.1 '/' [.char 'a'] ['a']
    (by rfl)
    (by simp [matchIndex])
    (by simp [matchIndex])

/-- C6: the `ExactlyOne` step counts the alternatives whose concatenation
with the remaining tokens matches the current input; exactly one success
is a `Match`, zero or several are `Retryable`.  With the pattern
`src/@([a-z]|[a-c]).rs`, input `src/d.rs` matches (one alternative) while
`src/a.rs` does not (both alternatives match). -/
theorem exactlyOne_counting :
    (∀ (alts : List (List Token)) (rest : List Token) (input : List Char),
      matchIndex (.exactlyOne alts :: rest) input =
        if alts.countP (fun alt => decide (matchIndex (alt ++ rest) input = .matched)) = 1
        then Status.matched else Status.retryable) ∧
    parse "src/@([a-z]|[a-c]).rs".toList =
      .ok [.char 's', .char 'r', .char 'c', .char '/',
           .exactlyOne [[.anyOf [.range 'a' 'z']], [.anyOf [.range 'a' 'c']]],
           .char '.', .char 'r', .char 's'] ∧
    matcherMatches
      [.char 's', .char 'r', .char 'c', .char '/',
       .exactlyOne [[.anyOf [.range 'a' 'z']], [.anyOf [.range 'a' 'c']]],
       .char '.', .char 'r', .char 's'] "src/d.rs".toList = true ∧
    matcherMatches
      [.char 's', .char 'r', .char 'c', .char '/',
       .exactlyOne [[.anyOf [.range 'a' 'z']], [.anyOf [.range 'a' 'c']]],
       .char '.', .char 'r', .char 's'] "src/a.rs".toList = false := by
  refine ⟨?_, by rfl, ?_, ?_⟩
  · intro alts rest input
    rw [matchIndex, countMatchingAlts_min rest input alts 0 (by omega)]
    by_cases hc :
        alts.countP (fun alt => decide (matchIndex (alt ++ rest) input = .matched)) = 1
    · have h1 : min (0 + alts.countP
          (fun alt => decide (matchIndex (alt ++ rest) input = .matched))) 2 = 1 := by omega
      rw [if_pos h1, if_pos hc]
    · have h1 : ¬ min (0 + alts.countP
          (fun alt => decide (matchIndex (alt ++ rest) input = .matched))) 2 = 1 := by omega
      rw [if_neg h1, if_neg hc]
  · simp [matcherMatches, matchIndex, countMatchingAlts, matchSpecifiers]
  · simp [matcherMatches, matchIndex, countMatchingAlts, matchSpecifiers]

/-- C7: `compile("*")` is the single token `AnySequence` and
`compile("**")` the single token `AnyRecursive`, and each matches every
input string, including the empty one and ones containing separators. -/
theorem star_matches_everything :
    parse "*".toList = .ok [.anySequence] ∧
    parse "**".toList = .ok [.anyRecursive] ∧
    ∀ s : List Char,
      matcherMatches [.anySequence] s = true ∧ matcherMatches [.anyRecursive] s = true := by
  refine ⟨by rfl, by rfl, ?_⟩
  intro s
  cases s with
  | nil => constructor <;> simp [matcherMatches, matchIndex]
  | cons x xs =>
      constructor <;> simp [matcherMatches, matchIndex, seqSearch_nil_matched]

/-- C8 counterexample: `compile("[a")` — a class with one character after
the `[` and no closing `]` — fails with the `UnclosedRange` kind at offset
1, not with the `IllegalRange` kind the claim names. -/
theorem unterminated_class_kind_cex :
    parse "[a".toList = .error (.unclosedRange 1) ∧
    isIllegalRangeErr (parse "[a".toList) = false := by
  exact ⟨by rfl, by rfl⟩

/-- C8 (amended): a character class with at least one character between
`[` (or `[!`) and the end of the text whose body scan finds no unescaped
closing `]` (and no unescaped `[`, `(`, `)`, `|`, which would be
`IllegalChar`) fails with the `UnclosedRange` kind at offset `len - 1`;
`[]` and `[!]` (also mid-pattern, as in `abc[]`) fail with `EmptyRange` at
the offset of the `[`. -/
theorem unterminated_class_amended :
    (∀ (chars : List Char) (start : Nat),
      start + 1 < chars.length →
      ((chars.getD (start + 1) ' ' = '!' →
          scanClassBody (chars.drop (start + 2)) false 0 = .unterminated →
          parseRange chars start = .error (.unclosedRange (chars.length - 1))) ∧
       (chars.getD (start + 1) ' ' ≠ '!' →
          scanClassBody (chars.drop (start + 1)) false 0 = .unterminated →
          parseRange chars start = .error (.unclosedRange (chars.length - 1))))) ∧
    parse "[]".toList = .error (.emptyRange 0) ∧
    parse "[!]".toList = .error (.emptyRange 0) ∧
    parse "abc[]".toList = .error (.emptyRange 3) := by
  refine ⟨?_, by rfl, by rfl, by rfl⟩
  intro chars start hlen
  have hguard : ¬ start + 1 ≥ chars.length := by omega
  constructor
  · intro hbang hscan
    unfold parseRange rangeBody
    rw [if_neg hguard, if_pos hbang, hscan]
  · intro hbang hscan
    have hd : List.drop (start + 1) chars =
        chars.getD (start + 1) ' ' :: List.drop (start + 2) chars := by
      rw [List.getD_eq_getElem?_getD, List.getElem?_eq_getElem hlen]
      exact List.drop_eq_getElem_cons hlen
    have hcl : chars.getD (start + 1) ' ' ≠ ']' := by
      intro hceq
      rw [hd, hceq] at hscan
      simp [scanClassBody] at hscan
    unfold parseRange rangeBody
    rw [if_neg hguard, if_neg hbang, if_neg hcl, hscan]

/-- Witness for C8's amended theorem: the class of `"[a"` (one character,
never closed) compiles to `UnclosedRange` at offset 1. -/
theorem unterminated_class_amended_witness :
    parseRange ['[', 'a'] 0 = .error (.unclosedRange 1) := by
  exact ((unterminated_class_amended.1 ['[', 'a'] 0 (by decide)).2
    (by decide) (by decide))

/-- C9: the inverted range `[2-1]` compiles successfully to a class with
the single specifier `Range('2','1')`, and since the inclusive membership
test `lo ≤ c ∧ c ≤ hi` is unsatisfiable for `lo > hi`, no one-character
input matches. -/
theorem inverted_range_matches_nothing :
    parse "[2-1]".toList = .ok [.anyOf [.range '2' '1']] ∧
    ∀ c : Char, matcherMatches [.anyOf [.range '2' '1']] [c] = false := by
  refine ⟨by rfl, ?_⟩
  intro c
  have hneg : ¬('2' ≤ c ∧ c ≤ '1') := by
    rintro ⟨h1, h2⟩
    exact absurd (h1.trans h2) (by decide)
  simp [matcherMatches, matchIndex, matchSpecifiers, hneg]

/-- C10: inside a character class the scanner uses the backslash only to
decide where the class ends (the escaped `]` does not close it) but keeps
it in the class body, and the specifier builder turns it into a `Char`
specifier: `compile("[\]]")` succeeds with the class
`{Char('\'), Char(']')}`, which matches both `\` and `]`. -/
theorem escaped_bracket_class :
    parse ['[', '\\', ']', ']'] = .ok [.anyOf [.char '\\', .char ']']] ∧
    matcherMatches [.anyOf [.char '\\', .char ']']] ['\\'] = true ∧
    matcherMatches [.anyOf [.char '\\', .char ']']] [']'] = true := by
  refine ⟨by rfl, ?_, ?_⟩
  · simp [matcherMatches, matchIndex, matchSpecifiers]
  · simp [matcherMatches, matchIndex, matchSpecifiers]

end Globber
